import Mathlib

/-!
Shallow embedding of the `sdk-retry` repository's core retry queue
(`src/retry-queue.ts`, class `RetryQueue`) and its storage adapter
(`src/storage-adapter.ts`, class `StorageAdapter`).

Modelling conventions:
- JS numbers holding timestamps / durations are modelled as `Int`
  (all values involved are integers well inside the float-exact range);
  counters are `Nat` except the in-flight counter, which is `Int` so that
  the JS `--` is not truncated.
- `Date.now()` is an input (`now`), `Math.random`-based id generation is an
  input (`newId`), `fetch` / `navigator.sendBeacon` / `localStorage` are
  oracles supplied through explicit environment records.
- Methods that mutate `this` become functions from the relevant state to
  the new state; `this.storage.save(...)` is a side effect on external
  storage and carries no information needed by the claims, so it is not
  threaded through.
- The asynchronous processing cycle is modelled sequentially: the batch
  fill loop is synchronous in the source (the only suspension points are
  the `fetch` awaits), and the settled outcomes of one batch are applied
  in batch order.
-/

namespace SdkRetry

/-- Priority of a queued request, `src/types.ts`. -/
inductive Priority where
  | low
  | normal
  | high
deriving DecidableEq, Repr

/-- PRIORITY_WEIGHT table from `src/retry-queue.ts`: low=1, normal=2, high=3. -/
def PRIORITY_WEIGHT : Priority → Nat
  | .low => 1
  | .normal => 2
  | .high => 3

/-- Request payload fields the queue logic inspects (`RequestPayload` in
`src/types.ts`).  `url`, `data`, `timestamp` and `updateSendInfo` shape only
the transmitted body, never the queue state, and are omitted.
`headers` keeps only its key list: the code only tests presence and
`Object.keys(headers).length`. -/
structure Payload where
  priority : Option Priority
  method : Option String
  headers : Option (List String)
deriving DecidableEq, Repr

/-- One queue entry (`QueueItem` in `src/types.ts`). -/
structure QueueItem where
  id : Nat
  payload : Payload
  priority : Priority
  retryCount : Nat
  lastRetryTime : Int
  createdAt : Int
deriving DecidableEq, Repr

/-- Resolved configuration (`Required<RetryQueueOptions>`), with the
constructor's default values.  `storagePrefix` and `debug` only affect
storage keys and logging and are omitted. -/
structure RetryQueueOptions where
  maxQueueSize : Nat := 100
  maxRetries : Nat := 5
  expireTime : Int := 24 * 60 * 60 * 1000
  retryInterval : Int := 30 * 1000
  maxConcurrent : Int := 3
  maxFlushOnUnload : Nat := 1
deriving DecidableEq, Repr

/-- The comparator passed to `this.queue.sort` in `removeLowestPriorityItem`,
as the Boolean order "a sorts no later than b": ascending priority weight,
ties broken by ascending `createdAt`. -/
def sortLe (a b : QueueItem) : Bool :=
  decide (PRIORITY_WEIGHT a.priority < PRIORITY_WEIGHT b.priority ∨
    (PRIORITY_WEIGHT a.priority = PRIORITY_WEIGHT b.priority ∧ a.createdAt ≤ b.createdAt))

/-- RetryQueue.removeLowestPriorityItem: on a non-empty queue, sort by
(priority weight, createdAt) ascending and shift the first element.
Returns the removed item (the source logs it) and the remaining queue. -/
def removeLowestPriorityItem (q : List QueueItem) : Option QueueItem × List QueueItem :=
  if q.isEmpty then
    (none, q)
  else
    let sorted := q.mergeSort sortLe
    (sorted.head?, sorted.tail)

/-- RetryQueue.enqueue: evict one item if the queue is full, then append a
fresh item with `retryCount = 0`, `lastRetryTime = 0`, `createdAt = now`.
Always returns `true`. -/
def enqueue (opts : RetryQueueOptions) (now : Int) (newId : Nat) (payload : Payload)
    (q : List QueueItem) : Bool × List QueueItem :=
  let q := if q.length ≥ opts.maxQueueSize then (removeLowestPriorityItem q).2 else q
  let item : QueueItem :=
    { id := newId
      payload := payload
      priority := payload.priority.getD .normal
      retryCount := 0
      lastRetryTime := 0
      createdAt := now }
  (true, q ++ [item])

/-- Filter predicate of RetryQueue.cleanExpiredItems: drop expired items and
items at or above the retry limit. -/
def cleanKeep (opts : RetryQueueOptions) (now : Int) (item : QueueItem) : Bool :=
  if now - item.createdAt > opts.expireTime then false
  else if item.retryCount ≥ opts.maxRetries then false
  else true

/-- RetryQueue.cleanExpiredItems (queue effect; the conditional re-save is a
storage side effect). -/
def cleanExpiredItems (opts : RetryQueueOptions) (now : Int) (q : List QueueItem) :
    List QueueItem :=
  q.filter (cleanKeep opts now)

/-- RetryQueue.removeItem: `findIndex` + `splice(index, 1)`, i.e. remove the
first item with the given id, if any. -/
def removeItem : List QueueItem → Nat → List QueueItem
  | [], _ => []
  | it :: rest, id => if it.id == id then rest else it :: removeItem rest id

/-- In-place mutation of the first item with the given id (the source mutates
the object found by `this.queue.find`). -/
def updateFirst (id : Nat) (f : QueueItem → QueueItem) : List QueueItem → List QueueItem
  | [] => []
  | it :: rest => if it.id == id then f it :: rest else it :: updateFirst id f rest

/-- RetryQueue.incrementRetryCount: find the item, bump `retryCount`, stamp
`lastRetryTime = now`; if the new count reaches `maxRetries`, remove the item
instead of keeping it. -/
def incrementRetryCount (opts : RetryQueueOptions) (now : Int) (q : List QueueItem)
    (id : Nat) : List QueueItem :=
  match q.find? (fun it => it.id == id) with
  | none => q
  | some item =>
    let newRc := item.retryCount + 1
    let q2 := updateFirst id (fun it => { it with retryCount := newRc, lastRetryTime := now }) q
    if newRc ≥ opts.maxRetries then removeItem q2 id else q2

/-- A sequence of enqueue calls (each with its `Date.now()`, generated id and
payload), returning each call's result and the queue after it. -/
def enqueueTrace (opts : RetryQueueOptions) :
    List (Int × Nat × Payload) → List QueueItem → List (Bool × List QueueItem)
  | [], _ => []
  | c :: rest, q =>
    let r := enqueue opts c.1 c.2.1 c.2.2 q
    r :: enqueueTrace opts rest r.2

/-- Every entry in the queue is strictly below the retry limit. -/
def RetryInvariant (opts : RetryQueueOptions) (q : List QueueItem) : Prop :=
  ∀ it ∈ q, it.retryCount < opts.maxRetries

instance (opts : RetryQueueOptions) (q : List QueueItem) :
    Decidable (RetryInvariant opts q) :=
  inferInstanceAs (Decidable (∀ it ∈ q, it.retryCount < opts.maxRetries))

/-- Outcome of one `fetch` in RetryQueue.retryItem: resolved with `ok`,
resolved with a non-ok status, or rejected. -/
inductive FetchOutcome where
  | ok
  | httpError
  | throwErr
deriving DecidableEq, Repr

/-- RetryQueue.retryItem acting on (queue, currentConcurrent).  The early
`return` when the item is no longer in the queue happens before the
`try/finally`, so on that path the in-flight counter is NOT decremented;
on every other path the `finally` decrements it. -/
def retryItem (opts : RetryQueueOptions) (now : Int) (st : List QueueItem × Int)
    (id : Nat) (outcome : FetchOutcome) : List QueueItem × Int :=
  let q := st.1
  let cc := st.2
  match q.find? (fun it => it.id == id) with
  | none => (q, cc)
  | some _ =>
    let q' :=
      match outcome with
      | .ok => removeItem q id
      | .httpError => incrementRetryCount opts now q id
      | .throwErr =>
        if (q.find? (fun it => it.id == id)).isSome then incrementRetryCount opts now q id
        else q
    (q', cc - 1)

/-- The minimum wait before the next attempt, from RetryQueue.processQueue:
`Math.min(retryInterval, 1000 * Math.pow(2, retryCount))`. -/
def minWaitTime (opts : RetryQueueOptions) (rc : Nat) : Int :=
  min opts.retryInterval (1000 * 2 ^ rc)

/-- The synchronous batch-fill `for` loop of RetryQueue.processQueue: walk the
snapshot; skip items no longer in the live queue; stop at the concurrency
limit; skip items whose backoff window has not elapsed; otherwise increment
the in-flight counter and start the item.  Returns the started ids (in order)
and the counter after the fill. -/
def fillBatch (opts : RetryQueueOptions) (now : Int) (q : List QueueItem) :
    List QueueItem → Int → List Nat × Int
  | [], cc => ([], cc)
  | item :: rest, cc =>
    match q.find? (fun it => it.id == item.id) with
    | none => fillBatch opts now q rest cc
    | some live =>
      if cc ≥ opts.maxConcurrent then
        ([], cc)
      else if live.lastRetryTime > 0 then
        if now - live.lastRetryTime < minWaitTime opts live.retryCount then
          fillBatch opts now q rest cc
        else
          let r := fillBatch opts now q rest (cc + 1)
          (live.id :: r.1, r.2)
      else
        let r := fillBatch opts now q rest (cc + 1)
        (live.id :: r.1, r.2)

/-- Apply the settled outcomes of one batch (the `await Promise.allSettled`)
in batch order. -/
def runSettled (opts : RetryQueueOptions) (oracle : Nat → FetchOutcome) (now : Int)
    (ids : List Nat) (st : List QueueItem × Int) : List QueueItem × Int :=
  ids.foldl (fun st id => retryItem opts now st id (oracle id)) st

/-- The `while (queue.length > 0 && safeCount > 0)` loop of
RetryQueue.processQueue, with `safeCount` as fuel.  Returns the final
(queue, counter) and the ids of all attempts started across the batches. -/
def processLoop (opts : RetryQueueOptions) (oracle : Nat → FetchOutcome) (now : Int) :
    Nat → List QueueItem → Int → (List QueueItem × Int) × List Nat
  | 0, q, cc => ((q, cc), [])
  | fuel + 1, q, cc =>
    if q.isEmpty then ((q, cc), [])
    else
      let fill := fillBatch opts now q q cc
      if fill.1.isEmpty then ((q, fill.2), [])
      else
        let st := runSettled opts oracle now fill.1 (q, fill.2)
        let tailRes := processLoop opts oracle now fuel st.1 st.2
        (tailRes.1, fill.1 ++ tailRes.2)

/-- The cross-tab lock record stored in localStorage:
`{ tabId, timestamp }`. -/
structure LockRecord where
  tabId : Nat
  timestamp : Int
deriving DecidableEq, Repr

/-- What `localStorage.getItem(lockKey)` + `JSON.parse` yields: the read or
the parse throws, no record exists, or a record is found. -/
inductive LockRead where
  | throws
  | missing
  | found (r : LockRecord)
deriving DecidableEq, Repr

/-- Environment for one RetryQueue.tryAcquireLock call: whether
`window.localStorage` exists, the read result, and whether `setItem`
succeeds (a throwing `setItem` is caught by the same `try`). -/
structure LockEnv where
  hasLocalStorage : Bool
  read : LockRead
  setItemOk : Bool
deriving DecidableEq, Repr

/-- RetryQueue.tryAcquireLock.  Returns the acquisition result and the lock
record written on success (`none` when nothing was written).  Every throwing
path is caught and yields `true` (fail-open); a foreign lock younger than the
10s expiry is the only refusal. -/
def tryAcquireLock (env : LockEnv) (self : Nat) (now : Int) : Bool × Option LockRecord :=
  if env.hasLocalStorage = false then
    (true, none)
  else
    match env.read with
    | .throws => (true, none)
    | .found r =>
      if now - r.timestamp ≥ 10000 ∨ r.tabId = self then
        if env.setItemOk then (true, some ⟨self, now⟩) else (true, none)
      else
        (false, none)
    | .missing =>
      if env.setItemOk then (true, some ⟨self, now⟩) else (true, none)

/-- Instance state relevant to processing: the live queue, the
`isProcessing` flag, the tracked `processingPromise` (promise identities are
opaque `Nat`s), the in-flight counter, and the tab id. -/
structure QState where
  queue : List QueueItem
  isProcessing : Bool
  processingPromise : Option Nat
  currentConcurrent : Int
  tabId : Nat
deriving DecidableEq, Repr

/-- Environment of one processQueue call: `navigator.onLine`, `Date.now()`,
the localStorage lock environment, and the `fetch` outcome for each item id. -/
structure ProcEnv where
  online : Bool
  now : Int
  lock : LockEnv
  oracle : Nat → FetchOutcome

/-- How one processQueue call resolved: joined the in-flight cycle's promise,
skipped (offline / empty queue / lock held elsewhere), or ran a cycle. -/
inductive ProcessOutcome where
  | joined (p : Nat)
  | skippedOffline
  | skippedEmpty
  | skippedLocked
  | started
deriving DecidableEq, Repr

/-- The body of RetryQueue.processQueue past the re-entrancy guard: the
offline / empty / lock checks, then the cycle (clean, batch loop) with its
`finally` block (reset `isProcessing`, zero the counter, drop the promise). -/
def processQueueStart (opts : RetryQueueOptions) (s : QState) (env : ProcEnv) :
    ProcessOutcome × QState × List Nat :=
  if env.online = false then (.skippedOffline, s, [])
  else if s.queue.isEmpty then (.skippedEmpty, s, [])
  else if (tryAcquireLock env.lock s.tabId env.now).1 = false then (.skippedLocked, s, [])
  else
    let q1 := cleanExpiredItems opts env.now s.queue
    let res := processLoop opts env.oracle env.now 1000 q1 s.currentConcurrent
    (.started,
      { s with
          queue := res.1.1
          isProcessing := false
          processingPromise := none
          currentConcurrent := 0 },
      res.2)

/-- RetryQueue.processQueue.  `if (this.isProcessing && this.processingPromise)
return this.processingPromise` — the joined branch starts no cycle, changes no
state, performs no attempts (`getD 0` is only reached under `isSome`). -/
def processQueue (opts : RetryQueueOptions) (s : QState) (env : ProcEnv) :
    ProcessOutcome × QState × List Nat :=
  if s.isProcessing = true ∧ s.processingPromise.isSome then
    (.joined (s.processingPromise.getD 0), s, [])
  else
    processQueueStart opts s env

/-- RetryQueue.flush: delegates to processQueue (the trigger tag only flows
into the transmitted body). -/
def flush (opts : RetryQueueOptions) (s : QState) (env : ProcEnv) :
    ProcessOutcome × QState × List Nat :=
  processQueue opts s env

/-- Outcome of one `navigator.sendBeacon` call: returned true, returned
false, or threw. -/
inductive BeaconOutcome where
  | queued
  | rejected
  | throws
deriving DecidableEq, Repr

/-- Environment of one flushOnUnload call. -/
structure UnloadEnv where
  beaconAvailable : Bool
  now : Int
  beacon : Nat → BeaconOutcome

/-- The descending-priority comparator of flushOnUnload
(`PRIORITY_WEIGHT[b.priority] - PRIORITY_WEIGHT[a.priority]`). -/
def sortDescLe (a b : QueueItem) : Bool :=
  decide (PRIORITY_WEIGHT b.priority ≤ PRIORITY_WEIGHT a.priority)

/-- Whether the payload carries headers with at least one key
(`item.payload.headers && Object.keys(item.payload.headers).length > 0`). -/
def hasNonemptyHeaders (p : Payload) : Bool :=
  match p.headers with
  | some ks => !ks.isEmpty
  | none => false

/-- Whether the payload names a non-POST method
(`item.payload.method && item.payload.method.toUpperCase() !== 'POST'`). -/
def isNonPostMethod (p : Payload) : Bool :=
  match p.method with
  | some m => m.toUpper ≠ "POST"
  | none => false

/-- The `for` loop of flushOnUnload over the priority-sorted copy: stop once
`attemptedCount` reaches the cap, skip low-priority items, items with
headers, and non-POST items; invoke `sendBeacon` on the rest (a throwing
call is caught and does not advance `attemptedCount`).  Returns the ids on
which `sendBeacon` was invoked.  No statement in the loop touches the queue
or any item field. -/
def unloadLoop (opts : RetryQueueOptions) (env : UnloadEnv) :
    List QueueItem → Nat → List Nat
  | [], _ => []
  | item :: rest, attempted =>
    if attempted ≥ opts.maxFlushOnUnload then []
    else if item.priority = .low then unloadLoop opts env rest attempted
    else if hasNonemptyHeaders item.payload then unloadLoop opts env rest attempted
    else if isNonPostMethod item.payload then unloadLoop opts env rest attempted
    else
      match env.beacon item.id with
      | .throws => item.id :: unloadLoop opts env rest attempted
      | _ => item.id :: unloadLoop opts env rest (attempted + 1)

/-- RetryQueue.flushOnUnload: guard on `sendBeacon` availability, an empty
queue, and the absence of high/normal items; then run the send loop over a
sorted copy.  Returns the (unchanged) queue and the ids attempted. -/
def flushOnUnload (opts : RetryQueueOptions) (env : UnloadEnv) (q : List QueueItem) :
    List QueueItem × List Nat :=
  if env.beaconAvailable = false then (q, [])
  else if q.isEmpty then (q, [])
  else if (q.filter fun it =>
      decide (it.priority = .high ∨ it.priority = .normal)).length = 0 then (q, [])
  else
    let sortedQueue := q.mergeSort sortDescLe
    (q, unloadLoop opts env sortedQueue 0)

/-- A parsed value read back by StorageAdapter.load: either the expected
array shape or some other JSON value (`Array.isArray` fails). -/
inductive ParsedValue where
  | arr (items : List QueueItem)
  | nonArray
deriving DecidableEq, Repr

/-- The persisted record under the adapter's key: absent, a string that makes
`JSON.parse` throw, or a string parsing to `v`. -/
inductive RawStored where
  | absent
  | corrupt
  | wellFormed (v : ParsedValue)
deriving DecidableEq, Repr

/-- StorageAdapter state: the memory-fallback flag, whether localStorage is
available, and the persisted record. -/
structure AdapterState where
  useMemoryFallback : Bool
  available : Bool
  stored : RawStored
deriving DecidableEq, Repr

/-- StorageAdapter.clear: `localStorage.removeItem` guarded by availability. -/
def StorageAdapter.clear (s : AdapterState) : AdapterState :=
  if s.available = false then s else { s with stored := .absent }

/-- StorageAdapter.load: memory mode and unavailable storage yield `[]`; an
absent record yields `[]`; a parsed array is returned as-is; a parsed
non-array value yields `[]` with the record left in place; a throwing parse
is caught — switch to memory fallback, clear the record, return `[]`. -/
def StorageAdapter.load (s : AdapterState) : List QueueItem × AdapterState :=
  if s.useMemoryFallback then ([], s)
  else if s.available = false then ([], { s with useMemoryFallback := true })
  else
    match s.stored with
    | .absent => ([], s)
    | .wellFormed (.arr items) => (items, s)
    | .wellFormed .nonArray => ([], s)
    | .corrupt => ([], StorageAdapter.clear { s with useMemoryFallback := true })

/-! Helper lemmas. -/

/-- A non-empty list has `isEmpty = false`. -/
theorem isEmpty_false_of_ne_nil {q : List QueueItem} (h : q ≠ []) :
    ¬ (q.isEmpty = true) := by
  cases q with
  | nil => exact absurd rfl h
  | cons a l => simp

/-- The eviction order is transitive. -/
theorem sortLe_trans : ∀ a b c : QueueItem,
    sortLe a b = true → sortLe b c = true → sortLe a c = true := by
  intro a b c hab hbc
  simp only [sortLe, decide_eq_true_eq] at *
  omega

/-- The eviction order is total. -/
theorem sortLe_total : ∀ a b : QueueItem, (sortLe a b || sortLe b a) = true := by
  intro a b
  simp only [sortLe, Bool.or_eq_true, decide_eq_true_eq]
  omega

/-- The eviction order is reflexive. -/
theorem sortLe_refl (a : QueueItem) : sortLe a a = true := by
  simp [sortLe]

/-- Priority weights are at most 3. -/
theorem weight_le_three (p : Priority) : PRIORITY_WEIGHT p ≤ 3 := by
  cases p <;> decide

/-- Priority weights are injective. -/
theorem weight_inj : ∀ p q : Priority, PRIORITY_WEIGHT p = PRIORITY_WEIGHT q → p = q := by
  intro p q h
  cases p <;> cases q <;> first
    | rfl
    | (exfalso; simp [PRIORITY_WEIGHT] at h)

/-- Sorting a non-empty queue yields a non-empty list. -/
theorem mergeSort_ne_nil {q : List QueueItem} (le : QueueItem → QueueItem → Bool)
    (h : q ≠ []) : ∃ e t, q.mergeSort le = e :: t := by
  cases hms : q.mergeSort le with
  | nil =>
    exfalso
    apply h
    have hlen : (q.mergeSort le).length = q.length := List.length_mergeSort q
    rw [hms] at hlen
    exact List.length_eq_zero.mp (by simpa using hlen.symm)
  | cons e t => exact ⟨e, t, rfl⟩

/-- removeLowestPriorityItem on a non-empty queue shifts the head of the
sorted queue. -/
theorem removeLowest_spec {q : List QueueItem} {e : QueueItem} {t : List QueueItem}
    (h : q ≠ []) (hml : q.mergeSort sortLe = e :: t) :
    removeLowestPriorityItem q = (some e, t) := by
  unfold removeLowestPriorityItem
  rw [if_neg (isEmpty_false_of_ne_nil h)]
  simp [hml]

/-- Eviction removes exactly one entry. -/
theorem removeLowest_length {q : List QueueItem} (h : q ≠ []) :
    ((removeLowestPriorityItem q).2).length + 1 = q.length := by
  obtain ⟨e, t, hml⟩ := mergeSort_ne_nil sortLe h
  rw [removeLowest_spec h hml]
  have hlen : (q.mergeSort sortLe).length = q.length := List.length_mergeSort q
  rw [hml] at hlen
  simpa using hlen

/-- The survivors of an eviction all come from the original queue. -/
theorem mem_removeLowest_snd {q : List QueueItem} {x : QueueItem}
    (hx : x ∈ (removeLowestPriorityItem q).2) : x ∈ q := by
  by_cases h : q = []
  · subst h; simp [removeLowestPriorityItem] at hx
  · obtain ⟨e, t, hml⟩ := mergeSort_ne_nil sortLe h
    rw [removeLowest_spec h hml] at hx
    have : x ∈ q.mergeSort sortLe := by
      rw [hml]; exact List.mem_cons_of_mem e hx
    exact (List.mergeSort_perm q sortLe).mem_iff.mp this

/-- One enqueue call returns true and keeps the queue within capacity. -/
theorem enqueue_step (opts : RetryQueueOptions) (h1 : 1 ≤ opts.maxQueueSize)
    (now : Int) (nid : Nat) (p : Payload) (q : List QueueItem)
    (hle : q.length ≤ opts.maxQueueSize) :
    (enqueue opts now nid p q).1 = true ∧
    (enqueue opts now nid p q).2.length ≤ opts.maxQueueSize := by
  refine ⟨rfl, ?_⟩
  unfold enqueue
  by_cases hfull : q.length ≥ opts.maxQueueSize
  · rw [if_pos hfull]
    have hne : q ≠ [] := by
      intro h0
      rw [h0] at hfull
      simp at hfull
      omega
    have := removeLowest_length hne
    simp only [List.length_append, List.length_cons, List.length_nil]
    omega
  · rw [if_neg hfull]
    simp only [List.length_append, List.length_cons, List.length_nil]
    omega

/-- Members of removeItem's result were already in the queue. -/
theorem mem_removeItem {x : QueueItem} :
    ∀ {q : List QueueItem} {id : Nat}, x ∈ removeItem q id → x ∈ q := by
  intro q
  induction q with
  | nil => intro id h; simp [removeItem] at h
  | cons it rest ih =>
    intro id h
    simp only [removeItem] at h
    split at h
    · exact List.mem_cons_of_mem it h
    · rcases List.mem_cons.mp h with rfl | h'
      · exact List.mem_cons_self _ _
      · exact List.mem_cons_of_mem it (ih h')

/-- Members after updateFirst are old members or the image of an old member. -/
theorem mem_updateFirst {x : QueueItem} {f : QueueItem → QueueItem} :
    ∀ {q : List QueueItem} {id : Nat},
      x ∈ updateFirst id f q → x ∈ q ∨ ∃ j, j ∈ q ∧ x = f j := by
  intro q
  induction q with
  | nil => intro id h; simp [updateFirst] at h
  | cons it rest ih =>
    intro id h
    simp only [updateFirst] at h
    split at h
    · rcases List.mem_cons.mp h with rfl | h'
      · exact Or.inr ⟨it, List.mem_cons_self _ _, rfl⟩
      · exact Or.inl (List.mem_cons_of_mem it h')
    · rcases List.mem_cons.mp h with rfl | h'
      · exact Or.inl (List.mem_cons_self _ _)
      · rcases ih h' with h'' | ⟨j, hj, hx⟩
        · exact Or.inl (List.mem_cons_of_mem it h'')
        · exact Or.inr ⟨j, List.mem_cons_of_mem it hj, hx⟩

/-- Removing by id commutes with updating the first item of that id, when the
update preserves ids. -/
theorem removeItem_updateFirst (id : Nat) (f : QueueItem → QueueItem)
    (hf : ∀ y, (f y).id = y.id) :
    ∀ q : List QueueItem, removeItem (updateFirst id f q) id = removeItem q id := by
  intro q
  induction q with
  | nil => rfl
  | cons it rest ih =>
    by_cases hb : (it.id == id) = true
    · have hfb : ((f it).id == id) = true := by rw [hf]; exact hb
      simp only [updateFirst, removeItem, if_pos hb, if_pos hfb]
    · have hfb : ((f it).id == id) = false := by
        rw [hf]
        exact Bool.eq_false_iff.mpr hb
      simp only [updateFirst, removeItem, if_neg hb]
      rw [ih]

/-- Inside a queue with pairwise-distinct ids, nothing with the removed id
survives removeItem. -/
theorem removeItem_id_not_mem :
    ∀ (q : List QueueItem) (id : Nat) (x : QueueItem),
      (q.map QueueItem.id).Nodup → x ∈ removeItem q id → x.id ≠ id := by
  intro q
  induction q with
  | nil => intro id x _ h; simp [removeItem] at h
  | cons it rest ih =>
    intro id x hnd hx
    rw [List.map_cons] at hnd
    have hnd' := List.nodup_cons.mp hnd
    simp only [removeItem] at hx
    by_cases hb : (it.id == id) = true
    · rw [if_pos hb] at hx
      have hid : it.id = id := by simpa using hb
      intro hxe
      apply hnd'.1
      have hm := List.mem_map_of_mem QueueItem.id hx
      rwa [hxe, ← hid] at hm
    · rw [if_neg hb] at hx
      rcases List.mem_cons.mp hx with rfl | hx'
      · simpa using hb
      · exact ih id x hnd'.2 hx'

/-- cleanExpiredItems establishes the retry-limit invariant outright. -/
theorem cleanExpiredItems_inv (opts : RetryQueueOptions) (now : Int)
    (q : List QueueItem) : RetryInvariant opts (cleanExpiredItems opts now q) := by
  intro it hit
  have hkeep := List.of_mem_filter hit
  unfold cleanKeep at hkeep
  split at hkeep
  · cases hkeep
  · split at hkeep
    · cases hkeep
    · omega

/-- incrementRetryCount preserves the retry-limit invariant: the touched
entry is either kept strictly below the limit or removed on reaching it. -/
theorem incrementRetryCount_inv (opts : RetryQueueOptions) (now : Int)
    (q : List QueueItem) (id : Nat) (h : RetryInvariant opts q) :
    RetryInvariant opts (incrementRetryCount opts now q id) := by
  unfold incrementRetryCount
  cases hfind : q.find? (fun it => it.id == id) with
  | none => simpa only [hfind] using h
  | some item =>
    simp only [hfind]
    by_cases hge : item.retryCount + 1 ≥ opts.maxRetries
    · rw [if_pos hge, removeItem_updateFirst id
        (fun it => { it with retryCount := item.retryCount + 1, lastRetryTime := now })
        (fun y => rfl)]
      intro x hx
      exact h x (mem_removeItem hx)
    · rw [if_neg hge]
      intro x hx
      rcases mem_updateFirst hx with hx' | ⟨j, _, rfl⟩
      · exact h x hx'
      · simp only
        omega

/-- retryItem preserves the retry-limit invariant. -/
theorem retryItem_inv (opts : RetryQueueOptions) (now : Int)
    (st : List QueueItem × Int) (id : Nat) (oc : FetchOutcome)
    (h : RetryInvariant opts st.1) :
    RetryInvariant opts (retryItem opts now st id oc).1 := by
  obtain ⟨q, cc⟩ := st
  simp only at h
  unfold retryItem
  cases hfind : q.find? (fun it => it.id == id) with
  | none => simpa only [hfind] using h
  | some j =>
    cases oc with
    | ok =>
      simp only [hfind]
      intro x hx
      exact h x (mem_removeItem hx)
    | httpError =>
      simp only [hfind]
      exact incrementRetryCount_inv opts now q id h
    | throwErr =>
      simp only [hfind, Option.isSome_some, if_true]
      exact incrementRetryCount_inv opts now q id h

/-- A settled batch preserves the retry-limit invariant. -/
theorem runSettled_inv (opts : RetryQueueOptions) (oracle : Nat → FetchOutcome)
    (now : Int) :
    ∀ (ids : List Nat) (st : List QueueItem × Int), RetryInvariant opts st.1 →
      RetryInvariant opts (runSettled opts oracle now ids st).1 := by
  intro ids
  induction ids with
  | nil => intro st h; exact h
  | cons id rest ih =>
    intro st h
    simp only [runSettled, List.foldl_cons]
    exact ih _ (retryItem_inv opts now st id (oracle id) h)

/-- The processing while-loop preserves the retry-limit invariant. -/
theorem processLoop_inv (opts : RetryQueueOptions) (oracle : Nat → FetchOutcome)
    (now : Int) :
    ∀ (fuel : Nat) (q : List QueueItem) (cc : Int), RetryInvariant opts q →
      RetryInvariant opts (processLoop opts oracle now fuel q cc).1.1 := by
  intro fuel
  induction fuel with
  | zero => intro q cc h; exact h
  | succ n ih =>
    intro q cc h
    simp only [processLoop]
    split
    · exact h
    · split
      · exact h
      · exact ih _ _ (runSettled_inv opts oracle now _ _ h)

/-- Every id reported by the unload loop belongs to a non-low item of the
scanned list. -/
theorem unloadLoop_mem (opts : RetryQueueOptions) (env : UnloadEnv) :
    ∀ (l : List QueueItem) (att : Nat), ∀ id ∈ unloadLoop opts env l att,
      ∃ it, it ∈ l ∧ it.id = id ∧ it.priority ≠ .low := by
  intro l
  induction l with
  | nil => intro att id h; simp [unloadLoop] at h
  | cons item rest ih =>
    intro att id h
    unfold unloadLoop at h
    split at h
    · simp at h
    · split at h
      · obtain ⟨it, hmem, hid, hpr⟩ := ih att id h
        exact ⟨it, List.mem_cons_of_mem _ hmem, hid, hpr⟩
      · rename_i hlow
        split at h
        · obtain ⟨it, hmem, hid, hpr⟩ := ih att id h
          exact ⟨it, List.mem_cons_of_mem _ hmem, hid, hpr⟩
        · split at h
          · obtain ⟨it, hmem, hid, hpr⟩ := ih att id h
            exact ⟨it, List.mem_cons_of_mem _ hmem, hid, hpr⟩
          · split at h <;>
            · rcases List.mem_cons.mp h with h' | h'
              · exact ⟨item, List.mem_cons_self _ _, h'.symm, hlow⟩
              · obtain ⟨it, hmem, hid, hpr⟩ := ih _ id h'
                exact ⟨it, List.mem_cons_of_mem _ hmem, hid, hpr⟩

/-- The flushOnUnload guards and loop leave the queue untouched. -/
theorem flushOnUnload_queue_eq (opts : RetryQueueOptions) (env : UnloadEnv)
    (q : List QueueItem) : (flushOnUnload opts env q).1 = q := by
  unfold flushOnUnload
  split
  · rfl
  · split
    · rfl
    · split
      · rfl
      · rfl

/-- If processQueueStart ran a cycle, the finally block zeroed the in-flight
counter. -/
theorem processQueueStart_started_cc (opts : RetryQueueOptions) (s : QState)
    (env : ProcEnv) (h : (processQueueStart opts s env).1 = .started) :
    (processQueueStart opts s env).2.1.currentConcurrent = 0 := by
  unfold processQueueStart at h ⊢
  split at h
  · simp at h
  · split at h
    · simp at h
    · split at h
      · simp at h
      · rename_i hc1 hc2 hc3
        rw [if_neg hc1, if_neg hc2, if_neg hc3]

/-- Lock acquisition is fail-open when the read or parse throws. -/
theorem tryAcquireLock_throws (env : LockEnv) (self : Nat) (now : Int)
    (h : env.read = .throws) : (tryAcquireLock env self now).1 = true := by
  by_cases hls : env.hasLocalStorage = false
  · simp [tryAcquireLock, hls]
  · simp [tryAcquireLock, hls, h]

/-! Concrete sample data shared by witnesses and counterexamples. -/

/-- The resolved default configuration. -/
def ropts : RetryQueueOptions := {}

/-- A payload with no explicit priority, method or headers. -/
def payload0 : Payload := ⟨none, none, none⟩

/-- A fresh normal-priority entry. -/
def itemNm : QueueItem := ⟨1, ⟨some .normal, none, none⟩, .normal, 0, 0, 0⟩

/-- A state with a cycle in flight: `isProcessing` set and a tracked promise. -/
def sProc : QState := ⟨[itemNm], true, some 7, 1, 3⟩

/-- A benign processing environment. -/
def envOk : ProcEnv := ⟨true, 0, ⟨true, .missing, true⟩, fun _ => .ok⟩

/-- An unload environment whose beacon always accepts. -/
def uenvQ : UnloadEnv := ⟨true, 5, fun _ => .queued⟩

/-- A lock environment whose read throws. -/
def lenvT : LockEnv := ⟨true, .throws, true⟩

/-- An adapter state holding a well-formed but non-array persisted value. -/
def sBad : AdapterState := ⟨false, true, .wellFormed .nonArray⟩

/-- An adapter state already in memory mode. -/
def sMem : AdapterState := ⟨true, true, .absent⟩

/-- A high-priority entry created at time 10. -/
def itH : QueueItem := ⟨1, payload0, .high, 0, 0, 10⟩

/-- A low-priority entry created at time 20. -/
def itL2 : QueueItem := ⟨2, payload0, .low, 0, 0, 20⟩

/-- A low-priority entry created at time 5. -/
def itL3 : QueueItem := ⟨3, payload0, .low, 0, 0, 5⟩

/-- A mixed-priority three-entry queue. -/
def q3 : List QueueItem := [itH, itL2, itL3]

/-- A two-entry queue at the capacity of `wopts`. -/
def q2w : List QueueItem := [itH, itL3]

/-- A configuration with capacity two. -/
def wopts : RetryQueueOptions := { maxQueueSize := 2 }

/-- The degenerate configuration with capacity zero. -/
def optsQ0 : RetryQueueOptions := { maxQueueSize := 0 }

/-- The degenerate configuration with a zero retry limit. -/
def optsR0 : RetryQueueOptions := { maxRetries := 0 }

/-- An entry with two failed attempts behind it. -/
def itB : QueueItem := ⟨5, payload0, .normal, 2, 50, 0⟩

/-! Claim theorems. -/

/-- C1: a flush while a cycle is in flight (`isProcessing` true and
`processingPromise` non-null) returns the same in-flight promise, changes no
instance state, and starts no transport attempt of its own; hence a second
concurrent flush adds no attempt to the cycle. -/
theorem c1_flush_joins_inflight_cycle (opts : RetryQueueOptions) (s : QState)
    (env : ProcEnv) (p : Nat) (h1 : s.isProcessing = true)
    (h2 : s.processingPromise = some p) :
    flush opts s env = (.joined p, s, []) := by
  simp [flush, processQueue, h1, h2]

/-- Witness for C1 at a concrete in-flight state. -/
theorem c1_witness : flush ropts sProc envOk = (.joined 7, sProc, []) :=
  c1_flush_joins_inflight_cycle ropts sProc envOk 7 rfl rfl

/-- C6 counterexample: flushOnUnload attempts the (normal-priority) entry yet
leaves its `lastRetryTime` at 0 rather than stamping the attempt time, so the
claim that it "updates lastAttemptAt on each entry it attempts to send" fails
on this input. -/
theorem c6_unload_counterexample :
    (flushOnUnload ropts uenvQ [itemNm]).2 = [1] ∧
    (flushOnUnload ropts uenvQ [itemNm]).1 = [itemNm] ∧
    itemNm.lastRetryTime = 0 ∧ uenvQ.now = 5 := by
  have hms : ([itemNm].mergeSort sortDescLe) = [itemNm] :=
    List.perm_singleton.mp (List.mergeSort_perm _ _)
  refine ⟨?_, flushOnUnload_queue_eq ropts uenvQ [itemNm], rfl, rfl⟩
  unfold flushOnUnload
  rw [if_neg (by decide), if_neg (by decide), if_neg (by decide), hms]
  unfold unloadLoop
  rw [if_neg (by decide), if_neg (by decide), if_neg (by decide), if_neg (by decide)]
  rfl

/-- C6 amended: flushOnUnload removes no entry and leaves every entry's
`retryCount` AND `lastRetryTime` unchanged (it never touches the queue at
all); the ids it attempts all belong to non-low entries of the queue. -/
theorem c6_unload_frame_amended (opts : RetryQueueOptions) (env : UnloadEnv)
    (q : List QueueItem) :
    (flushOnUnload opts env q).1 = q ∧
    (flushOnUnload opts env q).1.map QueueItem.retryCount = q.map QueueItem.retryCount ∧
    (flushOnUnload opts env q).1.map QueueItem.lastRetryTime = q.map QueueItem.lastRetryTime ∧
    (∀ id ∈ (flushOnUnload opts env q).2, ∃ it, it ∈ q ∧ it.id = id ∧ it.priority ≠ .low) := by
  have hq : (flushOnUnload opts env q).1 = q := flushOnUnload_queue_eq opts env q
  refine ⟨hq, by rw [hq], by rw [hq], ?_⟩
  intro id hid
  revert hid
  unfold flushOnUnload
  split
  · intro hid; simp at hid
  · split
    · intro hid; simp at hid
    · split
      · intro hid; simp at hid
      · intro hid
        obtain ⟨it, hmem, hii, hpr⟩ := unloadLoop_mem opts env _ 0 id hid
        exact ⟨it, (List.mergeSort_perm q sortDescLe).mem_iff.mp hmem, hii, hpr⟩

/-- Witness for C6's amended theorem at a concrete queue. -/
theorem c6_witness : (flushOnUnload ropts uenvQ [itemNm]).1 = [itemNm] :=
  (c6_unload_frame_amended ropts uenvQ [itemNm]).1

/-- C7 counterexample: when the entry was already removed from the queue
before the attempt body ran, retryItem returns before the try/finally and the
in-flight counter is NOT decremented (it stays 1 instead of dropping to 0). -/
theorem c7_counter_counterexample :
    retryItem ropts 0 ([], 1) 42 .ok = ([], 1) ∧ (1 : Int) ≠ 1 - 1 := by
  decide

/-- C7 amended: whenever the entry is still in the queue as the attempt body
runs, the counter is decremented by exactly one on every outcome (ok, non-ok,
thrown); on the already-removed early-return path the state is untouched (no
decrement); and a completed processing cycle resets the counter to 0, so
capacity is not reduced across cycles. -/
theorem c7_counter_amended (opts : RetryQueueOptions) (now : Int) :
    (∀ (q : List QueueItem) (cc : Int) (id : Nat) (oc : FetchOutcome)
       (it : QueueItem), it ∈ q → it.id = id →
       (retryItem opts now (q, cc) id oc).2 = cc - 1) ∧
    (∀ (q : List QueueItem) (cc : Int) (id : Nat) (oc : FetchOutcome),
       (∀ it ∈ q, it.id ≠ id) → retryItem opts now (q, cc) id oc = (q, cc)) ∧
    (∀ (s : QState) (env : ProcEnv), (processQueue opts s env).1 = .started →
       (processQueue opts s env).2.1.currentConcurrent = 0) := by
  refine ⟨?_, ?_, ?_⟩
  · intro q cc id oc it hmem hid
    have hfind : q.find? (fun it => it.id == id) ≠ none := by
      intro hnone
      exact absurd (beq_iff_eq.mpr hid) (by simpa using List.find?_eq_none.mp hnone it hmem)
    obtain ⟨j, hj⟩ := Option.ne_none_iff_exists'.mp hfind
    cases oc <;> simp [retryItem, hj]
  · intro q cc id oc h
    have hfind : q.find? (fun it => it.id == id) = none :=
      List.find?_eq_none.mpr (fun x hx => by simpa using h x hx)
    simp [retryItem, hfind]
  · intro s env h
    by_cases hc : s.isProcessing = true ∧ s.processingPromise.isSome
    · rw [processQueue, if_pos hc] at h
      simp at h
    · rw [processQueue, if_neg hc] at h ⊢
      exact processQueueStart_started_cc opts s env h

/-- Witness for C7's amended theorem: a present entry with a failing attempt
gets the counter decremented from 1 to 0. -/
theorem c7_witness : (retryItem ropts 0 ([itemNm], 1) 1 .httpError).2 = 1 - 1 :=
  (c7_counter_amended ropts 0).1 [itemNm] 1 1 .httpError itemNm (by decide) rfl

/-- C8: lease acquisition succeeds exactly when no record exists, the record
is the caller's own, or the record's age reaches the 10s lease duration; on
success (with a working setItem) it writes `{tabId: self, timestamp: now}`;
a throwing read/parse or missing storage is fail-open (returns true), and a
throwing read still lets a processing cycle start. -/
theorem c8_lease_acquisition (self : Nat) (now : Int) (env : LockEnv) :
    (env.hasLocalStorage = false → (tryAcquireLock env self now).1 = true) ∧
    (env.read = .throws → (tryAcquireLock env self now).1 = true) ∧
    (env.hasLocalStorage = true → env.read = .missing →
      (tryAcquireLock env self now).1 = true ∧
      (env.setItemOk = true → (tryAcquireLock env self now).2 = some ⟨self, now⟩)) ∧
    (∀ r : LockRecord, env.hasLocalStorage = true → env.read = .found r →
      ((tryAcquireLock env self now).1 = true ↔
        (now - r.timestamp ≥ 10000 ∨ r.tabId = self)) ∧
      ((tryAcquireLock env self now).1 = true → env.setItemOk = true →
        (tryAcquireLock env self now).2 = some ⟨self, now⟩)) ∧
    (∀ (opts : RetryQueueOptions) (s : QState) (penv : ProcEnv),
      penv.lock.read = .throws → s.processingPromise = none → penv.online = true →
      s.queue ≠ [] → (processQueue opts s penv).1 = .started) := by
  refine ⟨?_, ?_, ?_, ?_, ?_⟩
  · intro h; simp [tryAcquireLock, h]
  · intro h; exact tryAcquireLock_throws env self now h
  · intro h1 h2
    constructor
    · cases hsi : env.setItemOk <;> simp [tryAcquireLock, h1, h2, hsi]
    · intro hsi; simp [tryAcquireLock, h1, h2, hsi]
  · intro r h1 h2
    constructor
    · by_cases hcond : (now - r.timestamp ≥ 10000 ∨ r.tabId = self)
      · cases hsi : env.setItemOk <;> simp [tryAcquireLock, h1, h2, hsi, hcond]
      · simp [tryAcquireLock, h1, h2, hcond]
    · intro _ hsi
      by_cases hcond : (now - r.timestamp ≥ 10000 ∨ r.tabId = self)
      · simp [tryAcquireLock, h1, h2, hsi, hcond]
      · simp_all [tryAcquireLock, h1, h2, hcond]
  · intro opts s penv hthrow hpp honline hq
    have hlock : (tryAcquireLock penv.lock s.tabId penv.now).1 = true :=
      tryAcquireLock_throws penv.lock s.tabId penv.now hthrow
    have hc : ¬ (s.isProcessing = true ∧ s.processingPromise.isSome) := by
      rw [hpp]; simp
    rw [processQueue, if_neg hc]
    unfold processQueueStart
    rw [honline]
    simp only [Bool.true_eq_false, if_false]
    rw [if_neg (by simp [List.isEmpty_iff, hq]), if_neg (by simp [hlock])]

/-- Witness for C8: a throwing read still acquires. -/
theorem c8_witness : (tryAcquireLock lenvT 1 0).1 = true :=
  (c8_lease_acquisition 1 0 lenvT).2.1 rfl

/-- C9 counterexample: a persisted value that parses but is not an array
(e.g. the string `'{"foo":"bar"}'`) makes load return the empty list, yet the
corrupt record is NOT cleared from storage, contradicting the claim. -/
theorem c9_load_counterexample :
    (StorageAdapter.load sBad).1 = [] ∧
    (StorageAdapter.load sBad).2.stored = .wellFormed .nonArray ∧
    (StorageAdapter.load sBad).2.stored ≠ .absent := by
  decide

/-- C9 amended: load never throws and returns [] on any corruption, but the
record is cleared (with a switch to memory fallback) only when parsing
throws; a parsed non-array value is treated as no data and left in place. -/
theorem c9_load_amended (s : AdapterState) :
    (s.useMemoryFallback = true → StorageAdapter.load s = ([], s)) ∧
    (s.useMemoryFallback = false → s.available = true → s.stored = .corrupt →
      (StorageAdapter.load s).1 = [] ∧ (StorageAdapter.load s).2.stored = .absent ∧
      (StorageAdapter.load s).2.useMemoryFallback = true) ∧
    (s.useMemoryFallback = false → s.available = true → s.stored = .wellFormed .nonArray →
      (StorageAdapter.load s).1 = [] ∧ (StorageAdapter.load s).2 = s) ∧
    (∀ items, s.useMemoryFallback = false → s.available = true →
      s.stored = .wellFormed (.arr items) → StorageAdapter.load s = (items, s)) := by
  refine ⟨?_, ?_, ?_, ?_⟩
  · intro h; simp [StorageAdapter.load, h]
  · intro h1 h2 h3
    simp [StorageAdapter.load, StorageAdapter.clear, h1, h2, h3]
  · intro h1 h2 h3
    simp [StorageAdapter.load, h1, h2, h3]
  · intro items h1 h2 h3
    simp [StorageAdapter.load, h1, h2, h3]

/-- Witness for C9's amended theorem: memory mode loads nothing and keeps the
state. -/
theorem c9_witness : StorageAdapter.load sMem = ([], sMem) :=
  (c9_load_amended sMem).1 rfl

/-- C2 counterexample: with `maxQueueSize = 0`, enqueue on the empty queue
returns true but leaves the queue above capacity, and no entry is evicted
although `length >= maxQueueSize` held. -/
theorem c2_capacity_counterexample :
    (enqueue optsQ0 0 1 payload0 []).1 = true ∧
    ¬ ((enqueue optsQ0 0 1 payload0 []).2.length ≤ optsQ0.maxQueueSize) ∧
    (removeLowestPriorityItem []).1 = none := by
  decide

/-- C2 amended: provided `maxQueueSize >= 1`, every enqueue call in any
sequence starting within capacity returns true and keeps the queue within
capacity; and an enqueue on a queue at or above capacity evicts exactly one
existing entry before appending the new one. -/
theorem c2_capacity_amended (opts : RetryQueueOptions) (h1 : 1 ≤ opts.maxQueueSize) :
    (∀ (calls : List (Int × Nat × Payload)) (q : List QueueItem),
       q.length ≤ opts.maxQueueSize →
       ∀ step ∈ enqueueTrace opts calls q,
         step.1 = true ∧ step.2.length ≤ opts.maxQueueSize) ∧
    (∀ (now : Int) (nid : Nat) (p : Payload) (q : List QueueItem),
       opts.maxQueueSize ≤ q.length →
       ∃ e, (removeLowestPriorityItem q).1 = some e ∧ e ∈ q ∧
         ((removeLowestPriorityItem q).2).length + 1 = q.length ∧
         (enqueue opts now nid p q).2 =
           (removeLowestPriorityItem q).2 ++
             [⟨nid, p, p.priority.getD .normal, 0, 0, now⟩]) := by
  constructor
  · intro calls
    induction calls with
    | nil =>
      intro q hq step h
      simp [enqueueTrace] at h
    | cons c rest ih =>
      intro q hq step h
      simp only [enqueueTrace] at h
      rcases List.mem_cons.mp h with rfl | h'
      · exact enqueue_step opts h1 c.1 c.2.1 c.2.2 q hq
      · exact ih _ (enqueue_step opts h1 c.1 c.2.1 c.2.2 q hq).2 step h'
  · intro now nid p q hfull
    have hne : q ≠ [] := by
      intro h0
      rw [h0] at hfull
      simp at hfull
      omega
    obtain ⟨e, t, hml⟩ := mergeSort_ne_nil sortLe hne
    have hspec := removeLowest_spec hne hml
    refine ⟨e, by rw [hspec], ?_, removeLowest_length hne, ?_⟩
    · have : e ∈ q.mergeSort sortLe := by rw [hml]; exact List.mem_cons_self e t
      exact (List.mergeSort_perm q sortLe).mem_iff.mp this
    · unfold enqueue
      rw [if_pos hfull]

/-- Witness for C2's amended theorem: on a two-entry queue at capacity two,
eviction removes exactly one entry. -/
theorem c2_witness : ((removeLowestPriorityItem q2w).2).length + 1 = q2w.length := by
  obtain ⟨e, _, _, hlen, _⟩ :=
    (c2_capacity_amended wopts (by decide)).2 0 9 payload0 q2w (by decide)
  exact hlen

/-- C3: the evicted entry is a lexicographic minimum of
(priority weight, createdAt): a high-priority entry goes only when every
remaining entry is high, and within a priority class the earliest-created
entry goes first. -/
theorem c3_eviction_lex_min (q : List QueueItem) (hq : q ≠ []) :
    ∃ e, (removeLowestPriorityItem q).1 = some e ∧ e ∈ q ∧
      (∀ x ∈ q, PRIORITY_WEIGHT e.priority < PRIORITY_WEIGHT x.priority ∨
        (PRIORITY_WEIGHT e.priority = PRIORITY_WEIGHT x.priority ∧
          e.createdAt ≤ x.createdAt)) ∧
      (e.priority = .high → ∀ x ∈ q, x.priority = .high) ∧
      (∀ x ∈ q, x.priority = e.priority → e.createdAt ≤ x.createdAt) := by
  obtain ⟨e, t, hml⟩ := mergeSort_ne_nil sortLe hq
  have hperm := List.mergeSort_perm q sortLe
  have hsorted := List.sorted_mergeSort sortLe_trans sortLe_total q
  rw [hml] at hperm hsorted
  have hmin : ∀ x ∈ q, sortLe e x = true := by
    intro x hx
    rcases List.mem_cons.mp (hperm.mem_iff.mpr hx) with rfl | hxt
    · exact sortLe_refl x
    · exact (List.pairwise_cons.mp hsorted).1 x hxt
  have hlex : ∀ x ∈ q, PRIORITY_WEIGHT e.priority < PRIORITY_WEIGHT x.priority ∨
      (PRIORITY_WEIGHT e.priority = PRIORITY_WEIGHT x.priority ∧
        e.createdAt ≤ x.createdAt) := by
    intro x hx
    have := hmin x hx
    simpa [sortLe, decide_eq_true_eq] using this
  refine ⟨e, by rw [removeLowest_spec hq hml], hperm.mem_iff.mp (List.mem_cons_self e t),
    hlex, ?_, ?_⟩
  · intro hhigh x hx
    have hw := hlex x hx
    rw [hhigh] at hw
    have h3 : PRIORITY_WEIGHT Priority.high = 3 := rfl
    rw [h3] at hw
    have hx3 := weight_le_three x.priority
    have hwx : PRIORITY_WEIGHT x.priority = 3 := by omega
    exact weight_inj x.priority .high (by rw [hwx, h3])
  · intro x hx hpx
    rcases hlex x hx with hlt | ⟨_, hle⟩
    · rw [hpx] at hlt
      omega
    · exact hle

/-- Witness for C3 at a concrete mixed-priority queue. -/
theorem c3_witness : (removeLowestPriorityItem q3).1.isSome = true := by
  obtain ⟨e, he, _⟩ := c3_eviction_lex_min q3 (by decide)
  rw [he]
  rfl

/-- C4: every attempt started by the batch-fill loop is for an entry with
`lastRetryTime = 0` or `now - lastRetryTime >= min(retryInterval,
1000 * 2^retryCount)` (given the program's write discipline that
`lastRetryTime` is never negative); and the minimum wait is capped by
`retryInterval`, is monotone in the retry count, and equals the doubling
sequence `1000 * 2^retryCount` below the cap. -/
theorem c4_backoff_eligibility (opts : RetryQueueOptions) (now : Int)
    (q snapshot : List QueueItem) (cc : Int)
    (hq : ∀ it ∈ q, 0 ≤ it.lastRetryTime) :
    (∀ id ∈ (fillBatch opts now q snapshot cc).1,
      ∃ it, it ∈ q ∧ it.id = id ∧
        (it.lastRetryTime = 0 ∨
          now - it.lastRetryTime ≥ minWaitTime opts it.retryCount)) ∧
    (∀ rc : Nat, minWaitTime opts rc ≤ opts.retryInterval ∧
      minWaitTime opts rc ≤ minWaitTime opts (rc + 1) ∧
      ((1000 : Int) * 2 ^ rc ≤ opts.retryInterval →
        minWaitTime opts rc = 1000 * 2 ^ rc)) := by
  constructor
  · induction snapshot generalizing cc with
    | nil =>
      intro id h
      simp [fillBatch] at h
    | cons item rest ih =>
      intro id h
      unfold fillBatch at h
      cases hfind : q.find? (fun it => it.id == item.id) with
      | none =>
        rw [hfind] at h
        exact ih cc id h
      | some live =>
        simp only [hfind] at h
        have hlive : live ∈ q := List.mem_of_find?_eq_some hfind
        by_cases hcc : cc ≥ opts.maxConcurrent
        · rw [if_pos hcc] at h
          simp at h
        · rw [if_neg hcc] at h
          by_cases hpos : live.lastRetryTime > 0
          · rw [if_pos hpos] at h
            by_cases hwait : now - live.lastRetryTime < minWaitTime opts live.retryCount
            · rw [if_pos hwait] at h
              exact ih cc id h
            · rw [if_neg hwait] at h
              replace h : id ∈ live.id :: (fillBatch opts now q rest (cc + 1)).1 := h
              rcases List.mem_cons.mp h with rfl | h'
              · exact ⟨live, hlive, rfl, Or.inr (by omega)⟩
              · exact ih (cc + 1) id h'
          · rw [if_neg hpos] at h
            replace h : id ∈ live.id :: (fillBatch opts now q rest (cc + 1)).1 := h
            rcases List.mem_cons.mp h with rfl | h'
            · have := hq live hlive
              exact ⟨live, hlive, rfl, Or.inl (by omega)⟩
            · exact ih (cc + 1) id h'
  · intro rc
    refine ⟨min_le_left _ _, ?_, fun h => min_eq_right h⟩
    have hpos : (0 : Int) < 2 ^ rc := by positivity
    have h2 : (1000 : Int) * 2 ^ rc ≤ 1000 * 2 ^ (rc + 1) := by
      rw [pow_succ]
      nlinarith
    exact min_le_min (le_refl _) h2

/-- Witness for C4: the minimum wait never exceeds the configured ceiling. -/
theorem c4_witness : minWaitTime ropts 0 ≤ ropts.retryInterval :=
  ((c4_backoff_eligibility ropts 0 [] [] 0 (by decide)).2 0).1

/-- C5 counterexample: with `maxRetries = 0`, enqueue (a public operation)
leaves an entry whose `retryCount` is not below `maxRetries` in the queue. -/
theorem c5_retry_limit_counterexample :
    (enqueue optsR0 0 1 payload0 []).2.length = 1 ∧
    ¬ RetryInvariant optsR0 (enqueue optsR0 0 1 payload0 []).2 := by
  decide

/-- C5 amended: provided `maxRetries >= 1`, the cleanup establishes the
retry-limit invariant outright, incrementRetryCount / enqueue / processQueue /
flushOnUnload preserve it, and an entry whose failure count reaches
`maxRetries` under incrementRetryCount is absent afterwards (given distinct
ids). -/
theorem c5_retry_limit_amended (opts : RetryQueueOptions) (h1 : 1 ≤ opts.maxRetries) :
    (∀ (now : Int) (q : List QueueItem),
       RetryInvariant opts (cleanExpiredItems opts now q)) ∧
    (∀ (now : Int) (q : List QueueItem) (id : Nat), RetryInvariant opts q →
       RetryInvariant opts (incrementRetryCount opts now q id)) ∧
    (∀ (now : Int) (nid : Nat) (p : Payload) (q : List QueueItem),
       RetryInvariant opts q → RetryInvariant opts (enqueue opts now nid p q).2) ∧
    (∀ (s : QState) (env : ProcEnv), RetryInvariant opts s.queue →
       RetryInvariant opts (processQueue opts s env).2.1.queue) ∧
    (∀ (env : UnloadEnv) (q : List QueueItem), RetryInvariant opts q →
       RetryInvariant opts (flushOnUnload opts env q).1) ∧
    (∀ (now : Int) (q : List QueueItem) (id : Nat) (it0 : QueueItem),
       (q.map QueueItem.id).Nodup → it0 ∈ q → it0.id = id →
       opts.maxRetries ≤ it0.retryCount + 1 →
       ∀ x ∈ incrementRetryCount opts now q id, x.id ≠ id) := by
  refine ⟨cleanExpiredItems_inv opts, incrementRetryCount_inv opts, ?_, ?_, ?_, ?_⟩
  · intro now nid p q h
    unfold enqueue
    intro x hx
    rcases List.mem_append.mp hx with hx' | hx'
    · split at hx'
      · exact h x (mem_removeLowest_snd hx')
      · exact h x hx'
    · have : x = ⟨nid, p, p.priority.getD .normal, 0, 0, now⟩ := by simpa using hx'
      rw [this]
      simpa using h1
  · intro s env h
    unfold processQueue
    split
    · exact h
    · unfold processQueueStart
      split
      · exact h
      · split
        · exact h
        · split
          · exact h
          · exact processLoop_inv opts env.oracle env.now 1000 _ _
              (cleanExpiredItems_inv opts env.now s.queue)
  · intro env q h
    rw [flushOnUnload_queue_eq]
    exact h
  · intro now q id it0 hnd hmem hid hge x hx
    cases hfind : q.find? (fun it => it.id == id) with
    | none =>
      exfalso
      have := List.find?_eq_none.mp hfind it0 hmem
      simp [hid] at this
    | some j =>
      have hj_id : j.id = id := by simpa using List.find?_some hfind
      have hj_mem := List.mem_of_find?_eq_some hfind
      have hj_eq : j = it0 :=
        List.inj_on_of_nodup_map hnd hj_mem hmem (by rw [hj_id, hid])
      have hcond : j.retryCount + 1 ≥ opts.maxRetries := by rw [hj_eq]; omega
      simp only [incrementRetryCount, hfind] at hx
      rw [if_pos hcond] at hx
      rw [removeItem_updateFirst id
        (fun it => { it with retryCount := j.retryCount + 1, lastRetryTime := now })
        (fun y => rfl)] at hx
      exact removeItem_id_not_mem q id x hnd hx

/-- Witness for C5's amended theorem: a fresh entry surviving cleanup is
below the default retry limit. -/
theorem c5_witness : itemNm.retryCount < ropts.maxRetries :=
  (c5_retry_limit_amended ropts (by decide)).1 0 [itemNm] itemNm (by decide)

/-- C10: an enqueue on a full queue leaves the survivors as the ascending
(priority weight, createdAt)-sorted tail of the old queue followed by the new
entry; together with the evicted head they are a permutation of the old
queue. -/
theorem c10_eviction_reorders_queue (opts : RetryQueueOptions) (now : Int)
    (newId : Nat) (p : Payload) (q : List QueueItem)
    (hfull : opts.maxQueueSize ≤ q.length) (hne : q ≠ []) :
    ∃ e rest, q.mergeSort sortLe = e :: rest ∧
      (enqueue opts now newId p q).2 =
        rest ++ [⟨newId, p, p.priority.getD .normal, 0, 0, now⟩] ∧
      List.Pairwise (fun a b => sortLe a b = true) rest ∧
      (e :: rest).Perm q := by
  obtain ⟨e, rest, hml⟩ := mergeSort_ne_nil sortLe hne
  have hsorted := List.sorted_mergeSort sortLe_trans sortLe_total q
  rw [hml] at hsorted
  refine ⟨e, rest, hml, ?_, (List.pairwise_cons.mp hsorted).2,
    hml ▸ List.mergeSort_perm q sortLe⟩
  unfold enqueue
  rw [if_pos hfull, removeLowest_spec hne hml]

/-- Witness for C10: on a full two-entry queue the queue size is unchanged by
enqueue. -/
theorem c10_witness : (enqueue wopts 100 9 payload0 q2w).2.length = q2w.length := by
  obtain ⟨e, rest, hml, hres, _, hperm⟩ :=
    c10_eviction_reorders_queue wopts 100 9 payload0 q2w (by decide) (by decide)
  have hl := hperm.length_eq
  rw [hres, List.length_append]
  simp only [List.length_cons, List.length_nil] at hl ⊢
  omega

end SdkRetry
